import Mathlib

/-!
Verification of the `uptane_banners` repository: a shallow embedding of
`uptane_banners.py` (`print_banner` and its helpers) and `uptane_sounds.py`
(`play`, `_on_path`), with theorems settling the specification claims.

Terminal interaction is modelled by an explicit trace of events (clear the
screen, print one line, sleep); a call to `print_banner` returns the trace
emitted together with an optional error (the Python code raises exceptions;
an exception aborts the call after the events emitted so far).
Python's `textwrap.wrap` (default settings) is modelled down to its
chunk-consumption algorithm (`_wrap_chunks`, `_handle_long_word`,
`_munge_whitespace`); the chunk splitter keeps maximal non-whitespace runs
whole instead of subdividing them at hyphens as the `break_on_hyphens` regex
does — every property proved below is insensitive to how non-whitespace
runs are subdivided, since the wrapping lemmas quantify over arbitrary
chunk lists.
-/

/-- Terminal events emitted by `print_banner`: clearing the screen,
printing one line, and sleeping (the `show_for` pause). -/
inductive Event where
  | clear : Event
  | print : String → Event
  | sleep : Event
deriving DecidableEq, Repr

/-- The distinct failure modes of `print_banner`:
`Exception("Banner width exceeds terminal width.")`,
`Exception("Text exceeds terminal height.")`,
`ValueError("invalid width ... (must be > 0)")` raised inside
`textwrap.wrap`, and the `ValueError("max() arg is an empty sequence")`
raised by `max` on an empty banner array. -/
inductive Err where
  | bannerTooWide : Err
  | textTooTall : Err
  | invalidWidth : Int → Err
  | emptyMax : Err
deriving DecidableEq, Repr

/-- The `text` argument of `print_banner`: absent (`False` default), a
string (split at newlines), or a list of lines. -/
inductive TextArg where
  | noText : TextArg
  | str : String → TextArg
  | list : List String → TextArg
deriving DecidableEq, Repr

/-- `RESET_COLOR = '\033[0m'`. -/
def RESET_COLOR : String := "\x1b[0m"

/-- `RED = "\033[31m"`. -/
def RED : String := "\x1b[31m"

/-- `GREEN = "\033[32m"`. -/
def GREEN : String := "\x1b[32m"

/-- `BLACK_BG = "\033[40m"`. -/
def BLACK_BG : String := "\x1b[40m"

/-- `GRAY_BG = "\033[100m"`. -/
def GRAY_BG : String := "\x1b[100m"

/-- `n * " "` in Python: a string of `n` spaces. -/
def spaces (n : Nat) : String := String.mk (List.replicate n ' ')

/-- `len(max(banner_array, key=len))`: the length of a longest element, or
`none` on the empty list (where Python's `max` raises `ValueError`). -/
def maxLen : List String → Option Nat
  | [] => none
  | l@(_ :: _) => some (l.foldl (fun m s => max m s.length) 0)

/-- The `left_fill` computation of `print_banner` (lines 109-112):
`0` when the banner exactly fits, else `int((cols - banner_width) / 2)`. -/
def leftFill (w cols : Nat) : Nat := if w = cols then 0 else (cols - w) / 2

/-- Python truthiness of an optional string argument (`if color:`):
present and non-empty. -/
def truthyS : Option String → Bool
  | none => false
  | some s => !(s == "")

/-- `if color: output = color + output` — prepend a colour code when the
argument is truthy. -/
def applyColor (o : Option String) (s : String) : String :=
  match o with
  | none => s
  | some c => if c == "" then s else c ++ s

/-- One banner line as printed by lines 117-131: left and right padded with
spaces to `cols` columns, foreground code applied first, background code
prepended second (so the background code comes first in the emitted
string), and a single `RESET_COLOR` appended when either colour is set. -/
def renderBannerLine (cols lf : Nat) (color bg : Option String) (line : String) : String :=
  let out := spaces lf ++ line ++ spaces (cols - lf - line.length)
  let out := applyColor color out
  let out := applyColor bg out
  if truthyS color || truthyS bg then out ++ RESET_COLOR else out

/-- Normalisation of the `text` argument (lines 135-138): `none` when the
argument is Python-falsy, otherwise the list of caption lines (a string is
split at `"\n"`). -/
def captionLines : TextArg → Option (List String)
  | .noText => none
  | .str s => if s == "" then none else some (s.splitOn "\n")
  | .list l => if l.isEmpty then none else some l

/-- The caption margin (lines 150-153): ten spaces, wrapped in the
background colour and a reset when the background is truthy. -/
def captionMargin (bg : Option String) : String :=
  match bg with
  | none => spaces 10
  | some c => if c == "" then spaces 10 else c ++ spaces 10 ++ RESET_COLOR

/-- Python's `"{:^{width}}".format(s)` centring: unchanged when `s` already
fills the width, otherwise padded left with `pad / 2` spaces and right with
the rest (the extra space goes to the right). -/
def pyCenter (s : String) (w : Nat) : String :=
  if w ≤ s.length then s
  else spaces ((w - s.length) / 2) ++ s ++ spaces (w - s.length - (w - s.length) / 2)

/-- Bottom fill (lines 164-166): when the background is truthy, print
`rows - content - 1` full-width background lines (none when that quantity
is not positive, matching `range` of a non-positive number). -/
def fillEvents (rows cols : Nat) (bg : Option String) (content : Nat) : List Event :=
  match bg with
  | none => []
  | some c =>
    if c == "" then []
    else List.replicate (rows - content - 1) (Event.print (c ++ spaces cols ++ RESET_COLOR))

/-- The `show_for` tail (lines 168-170): sleep then clear when truthy. -/
def tailEvents : Option Nat → List Event
  | none => []
  | some n => if n == 0 then [] else [Event.sleep, Event.clear]

/-! ## The model of `textwrap.wrap` (CPython, default settings)

Chunks are lists of characters; the caption text handling of
`print_banner` calls `textwrap.wrap(line, cols - 2*10)` on each caption
line. -/

/-- The whitespace class of `textwrap` (`string.whitespace` restricted to
`"\t\n\x0b\x0c\r "`). -/
def isPyWS (c : Char) : Bool :=
  c == ' ' || c == '\t' || c == '\n' || c == '\x0b' || c == '\x0c' || c == '\r'

/-- A chunk counting as whitespace for `drop_whitespace`
(`chunk.strip() == ''`). -/
def isWSChunk (c : List Char) : Bool := c.all isPyWS

/-- `str.expandtabs(tabsize)` column tracking: a tab becomes spaces up to
the next multiple of `tabsize`; newline and carriage return reset the
column. -/
def expandTabsAux (tabsize : Nat) : Nat → List Char → List Char
  | _, [] => []
  | col, c :: cs =>
    if c = '\t' then
      if tabsize = 0 then expandTabsAux tabsize col cs
      else
        let n := tabsize - col % tabsize
        List.replicate n ' ' ++ expandTabsAux tabsize (col + n) cs
    else if c = '\n' ∨ c = '\r' then c :: expandTabsAux tabsize 0 cs
    else c :: expandTabsAux tabsize (col + 1) cs

/-- The `replace_whitespace` translation: each of `"\t\n\x0b\x0c\r"`
becomes a space. -/
def replaceWS (l : List Char) : List Char :=
  l.map (fun c =>
    if c == '\t' || c == '\n' || c == '\x0b' || c == '\x0c' || c == '\r' then ' ' else c)

/-- `TextWrapper._munge_whitespace`: expand tabs (tabsize 8), then replace
the remaining special whitespace by spaces. -/
def mungeWS (l : List Char) : List Char := replaceWS (expandTabsAux 8 0 l)

/-- Splitter helper: accumulate the current run (reversed) of kind `b`. -/
def splitRunsAux : List Char → Bool → List Char → List (List Char)
  | cur, _, [] => [cur.reverse]
  | cur, b, c :: cs =>
    if isPyWS c = b then splitRunsAux (c :: cur) b cs
    else cur.reverse :: splitRunsAux [c] (isPyWS c) cs

/-- `TextWrapper._split`, abstracted: maximal runs of whitespace and of
non-whitespace characters, in order (the `break_on_hyphens` regex further
subdivides non-whitespace runs; every property proved below holds for any
subdivision, see the wrapping lemmas, which quantify over arbitrary chunk
lists). -/
def splitRuns : List Char → List (List Char)
  | [] => []
  | c :: cs => splitRunsAux [c] (isPyWS c) cs

/-- Total length of a chunk list. -/
def sumLen (l : List (List Char)) : Nat := (l.map List.length).sum

/-- The greedy inner loop of `_wrap_chunks`: consume chunks while the
current line stays within `width`; returns the consumed prefix and the
rest. -/
def takeChunks (width : Nat) : Nat → List (List Char) → List (List Char) × List (List Char)
  | _, [] => ([], [])
  | curLen, c :: cs =>
    if curLen + c.length ≤ width then
      let p := takeChunks width (curLen + c.length) cs
      (c :: p.1, p.2)
    else ([], c :: cs)

/-- `str.rfind('-', 0, hi)` on a chunk: the largest index `< hi` holding a
hyphen. -/
def rfindHyphen : List Char → Nat → Option Nat
  | _, 0 => none
  | [], _ + 1 => none
  | c :: cs, n + 1 =>
    match rfindHyphen cs n with
    | some i => some (i + 1)
    | none => if c = '-' then some 0 else none

/-- `TextWrapper._handle_long_word` with `break_long_words` and
`break_on_hyphens` (default): returns the piece appended to the current
line and the remainder of the over-long chunk. -/
def handleLongWord (width curLen : Nat) (chunk : List Char) : List Char × List Char :=
  let spaceLeft := if width < 1 then 1 else width - curLen
  let e :=
    if spaceLeft < chunk.length then
      match rfindHyphen chunk spaceLeft with
      | some h =>
        if 0 < h ∧ (chunk.take h).any (fun c => c ≠ '-') then h + 1 else spaceLeft
      | none => spaceLeft
    else spaceLeft
  (chunk.take e, chunk.drop e)

/-- `drop_whitespace` at the end of a line: drop the last chunk of the
current line when it is pure whitespace. -/
def dropTrailingWS (l : List (List Char)) : List (List Char) :=
  match l.getLast? with
  | none => l
  | some c => if isWSChunk c then l.dropLast else l

/-- The current line built by one outer-loop iteration of `_wrap_chunks`
(after the leading-whitespace drop): greedily take chunks, then break an
over-long head chunk (`_handle_long_word`); returns the current line's
chunks and the remaining chunks.  `first` in `wrapStep1` is `lines == []`
in the Python code. -/
def wrapCur (width : Nat) (chunks1 : List (List Char)) :
    List (List Char) × List (List Char) :=
  let p := takeChunks width 0 chunks1
  match p.2 with
  | [] => (p.1, [])
  | r :: rs =>
    if width < r.length then
      let hl := handleLongWord width (sumLen p.1) r
      (p.1 ++ [hl.1], hl.2 :: rs)
    else (p.1, r :: rs)

/-- One outer-loop iteration assembled: leading-whitespace drop, greedy
take and long-word handling (`wrapCur`), trailing-whitespace drop, and the
emitted line (when any). -/
def wrapStep1 (width : Nat) (first : Bool) (c : List Char) (cs : List (List Char)) :
    Option (List Char) × List (List Char) :=
  let chunks1 := if !first && isWSChunk c then cs else c :: cs
  let q := wrapCur width chunks1
  let cur3 := dropTrailingWS q.1
  (if cur3.isEmpty then none else some cur3.flatten, q.2)

/-- The outer loop of `_wrap_chunks`, fuelled (the fuel passed by `pywrap`
is an upper bound on the iteration count, see `wrapFuel`). -/
def wrapLoop (width : Nat) : Nat → Bool → List (List Char) → List (List Char)
  | 0, _, _ => []
  | _ + 1, _, [] => []
  | fuel + 1, first, c :: cs =>
    match wrapStep1 width first c cs with
    | (none, rest) => wrapLoop width fuel first rest
    | (some line, rest) => line :: wrapLoop width fuel false rest

/-- Fuel bound for `wrapLoop`: every iteration either consumes a chunk or
a character, or is immediately followed by one that does. -/
def wrapFuel (cks : List (List Char)) : Nat := 2 * (sumLen cks + cks.length) + 4

/-- `textwrap.wrap(s, width)` under default settings, for positive width
(`print_banner` only reaches it with positive width; `_wrap_chunks` raises
`ValueError` otherwise, modelled in `print_banner` directly). -/
def pywrap (s : String) (width : Nat) : List String :=
  let cks := splitRuns (mungeWS s.data)
  (wrapLoop width (wrapFuel cks) true cks).map (fun l => String.mk l)

/-- The caption wrap step of `print_banner` (lines 140-142):
`text_array += textwrap.wrap(line, cols - 2*margin_len)` over the caption
lines, with `margin_len = 10`. -/
def wrapCaption (cols : Nat) (tlines : List String) : List String :=
  (tlines.map (fun l => pywrap l (cols - 20))).flatten

/-- The wrapped caption of a `text` argument (empty when the argument is
falsy); the number of caption rows `print_banner` accounts for. -/
def wrappedCaption (cols : Nat) (text : TextArg) : List String :=
  match captionLines text with
  | none => []
  | some tlines => wrapCaption cols tlines

/-- The body of `print_banner` once the banner width `w` is known. -/
def printBannerW (rows cols : Nat) (banner : List String) (show_for : Option Nat)
    (color bg : Option String) (text : TextArg) (w : Nat) : List Event × Option Err :=
  if cols < w then ([], some Err.bannerTooWide)
  else
    let pre := Event.clear ::
      banner.map (fun l => Event.print (renderBannerLine cols (leftFill w cols) color bg l))
    match captionLines text with
    | none => (pre ++ fillEvents rows cols bg banner.length ++ tailEvents show_for, none)
    | some tlines =>
      if (cols : Int) - 20 ≤ 0 then (pre, some (Err.invalidWidth ((cols : Int) - 20)))
      else
        let ta := wrapCaption cols tlines
        if rows < banner.length + ta.length then (pre, some Err.textTooTall)
        else
          (pre ++
            ta.map (fun l =>
              Event.print (captionMargin bg ++ pyCenter l (cols - 20) ++ captionMargin bg)) ++
            fillEvents rows cols bg (banner.length + ta.length) ++ tailEvents show_for, none)

/-- `print_banner(banner_array, show_for, color, color_bg, text)` from
`uptane_banners.py`: returns the trace of terminal events emitted and the
error the call raises, if any (`none` = normal return). -/
def print_banner (rows cols : Nat) (banner : List String) (show_for : Option Nat)
    (color bg : Option String) (text : TextArg) : List Event × Option Err :=
  match maxLen banner with
  | none => ([], some Err.emptyMax)
  | some w => printBannerW rows cols banner show_for color bg text w

/-! ## The model of `uptane_sounds.py` -/

/-- Events of `play`: a message printed to stdout, spawning the player
child process, and waiting for it. -/
inductive SEvent where
  | msg : String → SEvent
  | spawn : String → String → SEvent
  | wait : SEvent
deriving DecidableEq, Repr

/-- The external collaborators `play` and `_on_path` consult: the entries
of `PATH` (already split at `os.pathsep`) and the file-system predicates
`os.path.isfile` and `os.access(-, X_OK)`. -/
structure Sys where
  pathEnv : List String
  isFile : String → Bool
  isExec : String → Bool

/-- `path.strip('"')`: remove every leading and trailing double quote. -/
def stripQuotes (s : String) : String :=
  String.mk (((s.data.dropWhile (· == '"')).reverse.dropWhile (· == '"')).reverse)

/-- POSIX `os.path.join` for two components: an absolute second component
wins; otherwise a separator is inserted unless the first component is
empty or already ends with one. -/
def pathJoin (a b : String) : String :=
  if b.data.head? == some '/' then b
  else if a == "" || a.data.getLast? == some '/' then a ++ b
  else a ++ "/" ++ b

/-- `_on_path(cmd)`: some `PATH` entry, stripped of quotes, joined with the
command, names an existing executable file. -/
def onPath (sys : Sys) (cmd : String) : Bool :=
  sys.pathEnv.any (fun p =>
    let cmdPath := pathJoin (stripQuotes p) cmd
    sys.isFile cmdPath && sys.isExec cmdPath)

/-- `play(sound_path, blocking)` from `uptane_sounds.py`: the list of
events the call performs.  The function never raises: each failure mode
prints a message and returns. -/
def play (sys : Sys) (sound_path : String) (blocking : Bool) : List SEvent :=
  if !sys.isFile sound_path then
    [SEvent.msg ("Sound '" ++ sound_path ++ "' not found.")]
  else if onPath sys "omxplayer" then
    SEvent.spawn "omxplayer" sound_path :: (if blocking then [SEvent.wait] else [])
  else if onPath sys "afplay" then
    SEvent.spawn "afplay" sound_path :: (if blocking then [SEvent.wait] else [])
  else
    [SEvent.msg "No player found on this platform."]

/-- Whether an event spawns a child process. -/
def isSpawn : SEvent → Bool
  | .spawn _ _ => true
  | _ => false

/-! ## Lemmas: the wrapped lines never exceed the width -/

theorem sumLen_nil : sumLen [] = 0 := rfl

theorem sumLen_cons (c : List Char) (l : List (List Char)) :
    sumLen (c :: l) = c.length + sumLen l := by
  simp [sumLen]

theorem sumLen_append (a b : List (List Char)) :
    sumLen (a ++ b) = sumLen a + sumLen b := by
  simp [sumLen]

theorem flatten_length (l : List (List Char)) : l.flatten.length = sumLen l := by
  induction l with
  | nil => rfl
  | cons c cs ih => simp [sumLen_cons, ih]

theorem takeChunks_fst_sum (width : Nat) :
    ∀ (l : List (List Char)) (curLen : Nat), curLen ≤ width →
      curLen + sumLen (takeChunks width curLen l).1 ≤ width := by
  intro l
  induction l with
  | nil => intro curLen h; simpa [takeChunks, sumLen_nil] using h
  | cons c cs ih =>
    intro curLen h
    by_cases hc : curLen + c.length ≤ width
    · have h2 := ih (curLen + c.length) hc
      simp only [takeChunks, if_pos hc, sumLen_cons]
      omega
    · simp [takeChunks, if_neg hc, sumLen_nil]
      omega

theorem rfindHyphen_lt :
    ∀ (chunk : List Char) (hi h : Nat), rfindHyphen chunk hi = some h → h < hi := by
  intro chunk
  induction chunk with
  | nil =>
    intro hi h hh
    cases hi <;> simp [rfindHyphen] at hh
  | cons c cs ih =>
    intro hi h hh
    cases hi with
    | zero => simp [rfindHyphen] at hh
    | succ n =>
      simp only [rfindHyphen] at hh
      cases hr : rfindHyphen cs n with
      | some i =>
        rw [hr] at hh
        simp only [Option.some.injEq] at hh
        have := ih n i hr
        omega
      | none =>
        rw [hr] at hh
        by_cases hch : c = '-'
        · rw [if_pos hch] at hh
          simp only [Option.some.injEq] at hh
          omega
        · rw [if_neg hch] at hh
          exact absurd hh (by simp)

theorem handleLongWord_fst_le (width curLen : Nat) (chunk : List Char)
    (h1 : 1 ≤ width) (h2 : curLen ≤ width) :
    curLen + (handleLongWord width curLen chunk).1.length ≤ width := by
  have hw : ¬ width < 1 := by omega
  suffices h : (handleLongWord width curLen chunk).1.length ≤ width - curLen by omega
  simp only [handleLongWord, if_neg hw, List.length_take]
  apply le_trans (Nat.min_le_left _ _)
  split
  · split
    · next hy heq =>
        have hylt := rfindHyphen_lt chunk (width - curLen) hy heq
        split
        · exact Nat.succ_le_of_lt hylt
        · exact Nat.le_refl _
    · exact Nat.le_refl _
  · exact Nat.le_refl _

theorem sumLen_dropLast_le (l : List (List Char)) : sumLen l.dropLast ≤ sumLen l := by
  induction l with
  | nil => simp
  | cons c cs ih =>
    cases cs with
    | nil => simp [sumLen_nil, sumLen_cons]
    | cons d ds =>
      rw [List.dropLast_cons₂, sumLen_cons, sumLen_cons]
      have := ih
      omega

theorem sumLen_dropTrailingWS_le (l : List (List Char)) :
    sumLen (dropTrailingWS l) ≤ sumLen l := by
  unfold dropTrailingWS
  split
  · exact Nat.le_refl _
  · split
    · exact sumLen_dropLast_le l
    · exact Nat.le_refl _

theorem wrapCur_fst_le (width : Nat) (h1 : 1 ≤ width) (chunks1 : List (List Char)) :
    sumLen (wrapCur width chunks1).1 ≤ width := by
  have hp := takeChunks_fst_sum width chunks1 0 (Nat.zero_le _)
  simp only [Nat.zero_add] at hp
  simp only [wrapCur]
  split
  · exact hp
  · next r rs heq =>
      split
      · simp only [sumLen_append, sumLen_cons, sumLen_nil]
        have := handleLongWord_fst_le width (sumLen (takeChunks width 0 chunks1).1) r h1 hp
        omega
      · exact hp

theorem wrapStep1_line_le (width : Nat) (first : Bool) (c : List Char)
    (cs : List (List Char)) (line : List Char) (rest : List (List Char))
    (h1 : 1 ≤ width) (h : wrapStep1 width first c cs = (some line, rest)) :
    line.length ≤ width := by
  have hq : ∀ ch, sumLen (wrapCur width ch).1 ≤ width := fun ch => wrapCur_fst_le width h1 ch
  simp only [wrapStep1] at h
  rw [Prod.mk.injEq] at h
  obtain ⟨h2, -⟩ := h
  repeat' split at h2
  all_goals try exact Option.noConfusion h2
  all_goals rw [← Option.some.inj h2, flatten_length]
  all_goals exact le_trans (sumLen_dropTrailingWS_le _) (hq _)

theorem wrapLoop_line_le (width : Nat) (h1 : 1 ≤ width) :
    ∀ (fuel : Nat) (first : Bool) (chunks : List (List Char)) (line : List Char),
      line ∈ wrapLoop width fuel first chunks → line.length ≤ width := by
  intro fuel
  induction fuel with
  | zero =>
    intro first chunks line h
    simp [wrapLoop] at h
  | succ n ih =>
    intro first chunks line h
    cases chunks with
    | nil => simp [wrapLoop] at h
    | cons c cs =>
      rw [wrapLoop] at h
      cases hw1 : wrapStep1 width first c cs with
      | mk o rest =>
        rw [hw1] at h
        cases o with
        | none => exact ih first rest line h
        | some l =>
          rcases List.mem_cons.mp h with h | h
          · subst h
            exact wrapStep1_line_le width first c cs _ rest h1 hw1
          · exact ih false rest line h

theorem mk_length (l : List Char) : (String.mk l).length = l.length := rfl

theorem pywrap_line_le (s : String) (width : Nat) (h1 : 1 ≤ width) :
    ∀ line ∈ pywrap s width, line.length ≤ width := by
  intro line hline
  simp only [pywrap, List.mem_map] at hline
  obtain ⟨l, hl, rfl⟩ := hline
  rw [mk_length]
  exact wrapLoop_line_le width h1 _ _ _ _ hl

/-! ## Lemmas: wrapping an already-clean fitting line is the identity -/

theorem takeChunks_all (width : Nat) :
    ∀ (l : List (List Char)) (curLen : Nat), curLen + sumLen l ≤ width →
      takeChunks width curLen l = (l, []) := by
  intro l
  induction l with
  | nil => intro curLen h; rfl
  | cons c cs ih =>
    intro curLen h
    rw [sumLen_cons] at h
    have hc : curLen + c.length ≤ width := by omega
    simp only [takeChunks, if_pos hc, ih (curLen + c.length) (by omega)]

theorem expandTabsAux_id (tabsize : Nat) :
    ∀ (l : List Char) (col : Nat), (∀ c ∈ l, c ≠ '\t') → expandTabsAux tabsize col l = l := by
  intro l
  induction l with
  | nil => intro col _; rfl
  | cons c cs ih =>
    intro col h
    have hc : ¬ c = '\t' := h c (List.mem_cons_self c cs)
    rw [expandTabsAux, if_neg hc]
    have htail : ∀ col', expandTabsAux tabsize col' cs = cs :=
      fun col' => ih col' (fun d hd => h d (List.mem_cons_of_mem c hd))
    split
    · rw [htail]
    · rw [htail]

theorem replaceWS_id (l : List Char) (h : ∀ c ∈ l, isPyWS c = true → c = ' ') :
    replaceWS l = l := by
  have hfun : ∀ c ∈ l,
      (if c == '\t' || c == '\n' || c == '\x0b' || c == '\x0c' || c == '\r' then ' ' else c)
        = id c := by
    intro c hcl
    simp only [id]
    split
    · next hcc =>
        have hsp : c = ' ' := by
          apply h c hcl
          simp only [isPyWS, Bool.or_eq_true] at hcc ⊢
          tauto
        rw [hsp] at hcc
        exact absurd hcc (by decide)
    · rfl
  unfold replaceWS
  rw [List.map_congr_left hfun, List.map_id]

theorem mungeWS_id (l : List Char) (h : ∀ c ∈ l, isPyWS c = true → c = ' ') :
    mungeWS l = l := by
  have hnt : ∀ c ∈ l, c ≠ '\t' := by
    intro c hc hceq
    subst hceq
    have := h _ hc (by decide)
    exact absurd this (by decide)
  unfold mungeWS
  rw [expandTabsAux_id 8 l 0 hnt, replaceWS_id l h]

theorem splitRunsAux_ne_nil (l : List Char) :
    ∀ (cur : List Char) (b : Bool), splitRunsAux cur b l ≠ [] := by
  induction l with
  | nil => intro cur b; simp [splitRunsAux]
  | cons c cs ih =>
    intro cur b
    rw [splitRunsAux]
    split
    · exact ih (c :: cur) b
    · simp

theorem splitRunsAux_flatten (l : List Char) :
    ∀ (cur : List Char) (b : Bool),
      (splitRunsAux cur b l).flatten = cur.reverse ++ l := by
  induction l with
  | nil => intro cur b; simp [splitRunsAux]
  | cons c cs ih =>
    intro cur b
    rw [splitRunsAux]
    split
    · rw [ih (c :: cur) b]; simp
    · simp only [List.flatten_cons, ih [c] (isPyWS c)]; simp

theorem splitRuns_flatten (l : List Char) : (splitRuns l).flatten = l := by
  cases l with
  | nil => rfl
  | cons c cs => rw [splitRuns, splitRunsAux_flatten]; simp

theorem splitRuns_sumLen (l : List Char) : sumLen (splitRuns l) = l.length := by
  rw [← flatten_length, splitRuns_flatten]

theorem splitRunsAux_getLast (l : List Char) :
    ∀ (cur : List Char) (b : Bool),
      ∃ lc, (splitRunsAux cur b l).getLast? = some lc ∧
        lc.getLast? = (cur.reverse ++ l).getLast? := by
  induction l with
  | nil =>
    intro cur b
    exact ⟨cur.reverse, rfl, by simp⟩
  | cons c cs ih =>
    intro cur b
    rw [splitRunsAux]
    split
    · obtain ⟨lc, h1, h2⟩ := ih (c :: cur) b
      refine ⟨lc, h1, ?_⟩
      rw [h2]
      simp
    · obtain ⟨lc, h1, h2⟩ := ih [c] (isPyWS c)
      refine ⟨lc, ?_, ?_⟩
      · cases hr : splitRunsAux [c] (isPyWS c) cs with
        | nil => exact absurd hr (splitRunsAux_ne_nil cs [c] (isPyWS c))
        | cons d ds =>
          rw [List.getLast?_cons_cons]
          rw [hr] at h1
          exact h1
      · rw [h2]
        rw [List.getLast?_append_of_ne_nil cur.reverse (List.cons_ne_nil c cs)]
        simp

theorem splitRuns_last_not_ws (l : List Char) (ch : Char) (hlast : l.getLast? = some ch)
    (hch : isPyWS ch = false) :
    ∃ lc, (splitRuns l).getLast? = some lc ∧ isWSChunk lc = false := by
  cases l with
  | nil => simp at hlast
  | cons c cs =>
    rw [splitRuns]
    obtain ⟨lc, h1, h2⟩ := splitRunsAux_getLast cs [c] (isPyWS c)
    refine ⟨lc, h1, ?_⟩
    have hmem : ch ∈ lc := by
      apply List.mem_of_getLast?_eq_some
      rw [h2]
      simpa using hlast
    cases hws : isWSChunk lc
    · rfl
    · have hall := List.all_eq_true.mp hws ch hmem
      rw [hch] at hall
      exact absurd hall (by decide)

theorem dropTrailingWS_id (l : List (List Char)) (lc : List Char)
    (h1 : l.getLast? = some lc) (h2 : isWSChunk lc = false) : dropTrailingWS l = l := by
  unfold dropTrailingWS
  rw [h1]
  simp [h2]

theorem wrapLoop_nil_chunks (width fuel : Nat) (first : Bool) :
    wrapLoop width fuel first [] = [] := by
  cases fuel <;> rfl

theorem wrapLoop_single (width fuel : Nat) (chunks : List (List Char)) (lc : List Char)
    (hsum : sumLen chunks ≤ width)
    (hlast : chunks.getLast? = some lc)
    (hws : isWSChunk lc = false) :
    wrapLoop width (fuel + 1) true chunks = [chunks.flatten] := by
  cases chunks with
  | nil => simp at hlast
  | cons c cs =>
    have hcur : wrapCur width (c :: cs) = (c :: cs, []) := by
      unfold wrapCur
      rw [takeChunks_all width (c :: cs) 0 (by omega)]
    have hstep : wrapStep1 width true c cs = (some (c :: cs).flatten, []) := by
      have hch1 : (if (!true && isWSChunk c) = true then cs else c :: cs) = c :: cs := by
        simp
      simp only [wrapStep1]
      rw [hch1, hcur]
      rw [dropTrailingWS_id (c :: cs) lc hlast hws]
      simp
    rw [wrapLoop, hstep]
    simp [wrapLoop_nil_chunks]

theorem pywrap_fit (s : String) (width : Nat)
    (hne : s ≠ "")
    (hlen : s.length ≤ width)
    (hws : ∀ c ∈ s.data, isPyWS c = true → c = ' ')
    (hlast : s.data.getLast? ≠ some ' ') :
    pywrap s width = [s] := by
  have hdne : s.data ≠ [] := by
    intro hd
    apply hne
    cases s with
    | mk d => cases hd; rfl
  obtain ⟨ch, hch⟩ : ∃ ch, s.data.getLast? = some ch := by
    cases hd : s.data.getLast? with
    | none => exact absurd (List.getLast?_eq_none_iff.mp hd) hdne
    | some ch => exact ⟨ch, rfl⟩
  have hchws : isPyWS ch = false := by
    cases hpw : isPyWS ch
    · rfl
    · exfalso
      have hsp := hws ch (List.mem_of_getLast?_eq_some hch) hpw
      rw [hsp] at hch
      exact hlast hch
  obtain ⟨lc, hlc1, hlc2⟩ := splitRuns_last_not_ws s.data ch hch hchws
  have hsum : sumLen (splitRuns s.data) ≤ width := by
    rw [splitRuns_sumLen]
    exact hlen
  simp only [pywrap]
  rw [mungeWS_id s.data hws]
  rw [show wrapFuel (splitRuns s.data)
      = (2 * (sumLen (splitRuns s.data) + (splitRuns s.data).length) + 3) + 1 from by
    unfold wrapFuel; omega]
  rw [wrapLoop_single width _ (splitRuns s.data) lc hsum hlc1 hlc2]
  rw [splitRuns_flatten]
  cases s with
  | mk d => rfl

theorem wrapCaption_fit (cols : Nat) (tlines : List String)
    (h : ∀ l ∈ tlines, l ≠ "" ∧ l.length ≤ cols - 20 ∧
      (∀ c ∈ l.data, isPyWS c = true → c = ' ') ∧ l.data.getLast? ≠ some ' ') :
    wrapCaption cols tlines = tlines := by
  unfold wrapCaption
  induction tlines with
  | nil => rfl
  | cons t ts ih =>
    obtain ⟨h1, h2, h3, h4⟩ := h t (List.mem_cons_self t ts)
    have hts := ih (fun l hl => h l (List.mem_cons_of_mem t hl))
    rw [List.map_cons, List.flatten_cons, pywrap_fit t (cols - 20) h1 h2 h3 h4, hts]
    rfl

/-! ## Lemmas about `print_banner` -/

theorem foldl_max_init_le (l : List String) :
    ∀ a : Nat, a ≤ l.foldl (fun m s => max m s.length) a := by
  induction l with
  | nil => intro a; exact Nat.le_refl a
  | cons t ts ih =>
    intro a
    exact le_trans (le_max_left a t.length) (ih (max a t.length))

theorem foldl_max_mem_le (l : List String) :
    ∀ (a : Nat) (s : String), s ∈ l → s.length ≤ l.foldl (fun m s => max m s.length) a := by
  induction l with
  | nil => intro a s h; simp at h
  | cons t ts ih =>
    intro a s h
    rcases List.mem_cons.mp h with rfl | h
    · exact le_trans (le_max_right a s.length) (foldl_max_init_le ts (max a s.length))
    · exact ih (max a t.length) s h

theorem maxLen_le (banner : List String) (w : Nat) (h : maxLen banner = some w) :
    ∀ l ∈ banner, l.length ≤ w := by
  intro l hl
  cases banner with
  | nil => simp at hl
  | cons b bs =>
    simp only [maxLen, Option.some.injEq] at h
    subst h
    exact foldl_max_mem_le (b :: bs) 0 l hl

theorem maxLen_isSome (banner : List String) (h : banner ≠ []) :
    ∃ w, maxLen banner = some w := by
  cases banner with
  | nil => exact absurd rfl h
  | cons b bs => exact ⟨_, rfl⟩

theorem print_banner_eq (rows cols : Nat) (banner : List String) (sf : Option Nat)
    (color bg : Option String) (text : TextArg) (w : Nat)
    (hmax : maxLen banner = some w) :
    print_banner rows cols banner sf color bg text
      = printBannerW rows cols banner sf color bg text w := by
  unfold print_banner
  rw [hmax]

theorem printBannerW_too_wide (rows cols : Nat) (banner : List String) (sf : Option Nat)
    (color bg : Option String) (text : TextArg) (w : Nat) (h : cols < w) :
    printBannerW rows cols banner sf color bg text w = ([], some Err.bannerTooWide) := by
  simp only [printBannerW]
  rw [if_pos h]

theorem printBannerW_invalid_width (rows cols : Nat) (banner : List String) (sf : Option Nat)
    (color bg : Option String) (text : TextArg) (w : Nat) (tlines : List String)
    (h : ¬ cols < w) (hc : captionLines text = some tlines) (h20 : (cols : Int) - 20 ≤ 0) :
    printBannerW rows cols banner sf color bg text w
      = (Event.clear ::
          banner.map (fun l => Event.print (renderBannerLine cols (leftFill w cols) color bg l)),
         some (Err.invalidWidth ((cols : Int) - 20))) := by
  simp only [printBannerW]
  rw [if_neg h]
  split
  · next heq => rw [hc] at heq; exact absurd heq (by simp)
  · next tl heq =>
      rw [hc] at heq
      cases Option.some.inj heq
      rw [if_pos h20]

theorem printBannerW_too_tall (rows cols : Nat) (banner : List String) (sf : Option Nat)
    (color bg : Option String) (text : TextArg) (w : Nat) (tlines : List String)
    (h : ¬ cols < w) (hc : captionLines text = some tlines) (h20 : ¬ (cols : Int) - 20 ≤ 0)
    (hrows : rows < banner.length + (wrapCaption cols tlines).length) :
    printBannerW rows cols banner sf color bg text w
      = (Event.clear ::
          banner.map (fun l => Event.print (renderBannerLine cols (leftFill w cols) color bg l)),
         some Err.textTooTall) := by
  simp only [printBannerW]
  rw [if_neg h]
  split
  · next heq => rw [hc] at heq; exact absurd heq (by simp)
  · next tl heq =>
      rw [hc] at heq
      cases Option.some.inj heq
      rw [if_neg h20, if_pos hrows]

theorem printBannerW_ok_nocaption (rows cols : Nat) (banner : List String) (sf : Option Nat)
    (color bg : Option String) (text : TextArg) (w : Nat)
    (h : ¬ cols < w) (hc : captionLines text = none) :
    printBannerW rows cols banner sf color bg text w
      = ((Event.clear ::
          banner.map (fun l => Event.print (renderBannerLine cols (leftFill w cols) color bg l)))
          ++ fillEvents rows cols bg banner.length ++ tailEvents sf,
         none) := by
  simp only [printBannerW]
  rw [if_neg h]
  split
  · rfl
  · next tl heq => rw [hc] at heq; exact absurd heq (by simp)

theorem printBannerW_ok_caption (rows cols : Nat) (banner : List String) (sf : Option Nat)
    (color bg : Option String) (text : TextArg) (w : Nat) (tlines : List String)
    (h : ¬ cols < w) (hc : captionLines text = some tlines) (h20 : ¬ (cols : Int) - 20 ≤ 0)
    (hrows : ¬ rows < banner.length + (wrapCaption cols tlines).length) :
    printBannerW rows cols banner sf color bg text w
      = ((Event.clear ::
          banner.map (fun l => Event.print (renderBannerLine cols (leftFill w cols) color bg l)))
          ++ (wrapCaption cols tlines).map
              (fun l => Event.print (captionMargin bg ++ pyCenter l (cols - 20) ++ captionMargin bg))
          ++ fillEvents rows cols bg (banner.length + (wrapCaption cols tlines).length)
          ++ tailEvents sf,
         none) := by
  simp only [printBannerW]
  rw [if_neg h]
  split
  · next heq => rw [hc] at heq; exact absurd heq (by simp)
  · next tl heq =>
      rw [hc] at heq
      cases Option.some.inj heq
      rw [if_neg h20, if_neg hrows]

theorem printBannerW_events_prefix (rows cols : Nat) (banner : List String) (sf : Option Nat)
    (color bg : Option String) (text : TextArg) (w : Nat) (h : ¬ cols < w) :
    ∃ rest, (printBannerW rows cols banner sf color bg text w).1 =
      Event.clear ::
        (banner.map (fun l => Event.print (renderBannerLine cols (leftFill w cols) color bg l))
          ++ rest) := by
  cases hc : captionLines text with
  | none =>
    rw [printBannerW_ok_nocaption rows cols banner sf color bg text w h hc]
    exact ⟨fillEvents rows cols bg banner.length ++ tailEvents sf, by simp⟩
  | some tlines =>
    by_cases h20 : (cols : Int) - 20 ≤ 0
    · rw [printBannerW_invalid_width rows cols banner sf color bg text w tlines h hc h20]
      exact ⟨[], by simp⟩
    · by_cases hrows : rows < banner.length + (wrapCaption cols tlines).length
      · rw [printBannerW_too_tall rows cols banner sf color bg text w tlines h hc h20 hrows]
        exact ⟨[], by simp⟩
      · rw [printBannerW_ok_caption rows cols banner sf color bg text w tlines h hc h20 hrows]
        exact ⟨(wrapCaption cols tlines).map
              (fun l => Event.print (captionMargin bg ++ pyCenter l (cols - 20) ++ captionMargin bg))
            ++ fillEvents rows cols bg (banner.length + (wrapCaption cols tlines).length)
            ++ tailEvents sf, by simp⟩

theorem printBannerW_success (rows cols : Nat) (banner : List String) (sf : Option Nat)
    (color bg : Option String) (text : TextArg) (w : Nat)
    (h : (printBannerW rows cols banner sf color bg text w).2 = none) :
    (printBannerW rows cols banner sf color bg text w).1 =
      (Event.clear ::
        banner.map (fun l => Event.print (renderBannerLine cols (leftFill w cols) color bg l)))
      ++ (wrappedCaption cols text).map
          (fun l => Event.print (captionMargin bg ++ pyCenter l (cols - 20) ++ captionMargin bg))
      ++ fillEvents rows cols bg (banner.length + (wrappedCaption cols text).length)
      ++ tailEvents sf := by
  by_cases hw : cols < w
  · rw [printBannerW_too_wide rows cols banner sf color bg text w hw] at h
    simp at h
  · cases hc : captionLines text with
    | none =>
      rw [printBannerW_ok_nocaption rows cols banner sf color bg text w hw hc]
      simp [wrappedCaption, hc]
    | some tlines =>
      by_cases h20 : (cols : Int) - 20 ≤ 0
      · rw [printBannerW_invalid_width rows cols banner sf color bg text w tlines hw hc h20] at h
        simp at h
      · by_cases hrows : rows < banner.length + (wrapCaption cols tlines).length
        · rw [printBannerW_too_tall rows cols banner sf color bg text w tlines hw hc h20 hrows] at h
          simp at h
        · rw [printBannerW_ok_caption rows cols banner sf color bg text w tlines hw hc h20 hrows]
          simp [wrappedCaption, hc]

theorem spaces_length (n : Nat) : (spaces n).length = n := by
  rw [spaces, mk_length, List.length_replicate]

theorem fillEvents_truthy (rows cols content : Nat) (bg : Option String)
    (hbg : truthyS bg = true) :
    fillEvents rows cols bg content
      = List.replicate (rows - content - 1)
          (Event.print (bg.getD "" ++ spaces cols ++ RESET_COLOR)) := by
  cases bg with
  | none => simp [truthyS] at hbg
  | some c =>
    simp only [truthyS] at hbg
    have hcc : ¬ (c == "") = true := by
      intro hcc
      rw [hcc] at hbg
      simp at hbg
    simp only [fillEvents, Option.getD_some, if_neg hcc]

/-! ## The claims -/

/-- C1: for every banner whose width `w` is at most the terminal column
count `cols`, `print_banner` emits (after the clear) exactly one line per
banner line, padded with `leftFill w cols` spaces on the left and
`cols - leftFill - len` on the right; the left padding is `0` when
`w = cols` and `(cols - w) / 2` otherwise, and left padding + line length
+ right padding is exactly `cols` for every line (so every padded line is
`cols` columns wide). -/
theorem c1_centering (rows cols : Nat) (banner : List String) (sf : Option Nat)
    (color bg : Option String) (text : TextArg) (w : Nat)
    (hmax : maxLen banner = some w) (hW : w ≤ cols) :
    (∃ rest, (print_banner rows cols banner sf color bg text).1 =
      Event.clear ::
        (banner.map (fun l => Event.print (renderBannerLine cols (leftFill w cols) color bg l))
          ++ rest))
    ∧ leftFill w cols = (if w = cols then 0 else (cols - w) / 2)
    ∧ (∀ l ∈ banner,
        leftFill w cols + l.length + (cols - leftFill w cols - l.length) = cols)
    ∧ (∀ l ∈ banner,
        (spaces (leftFill w cols) ++ l ++ spaces (cols - leftFill w cols - l.length)).length
          = cols) := by
  have hnw : ¬ cols < w := by omega
  have harith : ∀ l ∈ banner,
      leftFill w cols + l.length + (cols - leftFill w cols - l.length) = cols := by
    intro l hl
    have hlw := maxLen_le banner w hmax l hl
    unfold leftFill
    split
    · omega
    · have hdiv : (cols - w) / 2 ≤ cols - w := Nat.div_le_self _ _
      omega
  refine ⟨?_, rfl, harith, ?_⟩
  · rw [print_banner_eq rows cols banner sf color bg text w hmax]
    exact printBannerW_events_prefix rows cols banner sf color bg text w hnw
  · intro l hl
    have := harith l hl
    simp only [String.length_append, spaces_length]
    omega

/-- C1 witness: the spec's own example — a 40-column, 10-row terminal and
the banner `["####", "#  #", "####"]` of width 4 (left padding 18). -/
theorem c1_witness :
    maxLen ["####", "#  #", "####"] = some 4 ∧ (4 : Nat) ≤ 40 ∧
    ((∃ rest, (print_banner 10 40 ["####", "#  #", "####"] none none none TextArg.noText).1 =
      Event.clear ::
        ((["####", "#  #", "####"] : List String).map
            (fun l => Event.print (renderBannerLine 40 (leftFill 4 40) none none l))
          ++ rest))
    ∧ leftFill 4 40 = (if 4 = 40 then 0 else (40 - 4) / 2)
    ∧ (∀ l ∈ (["####", "#  #", "####"] : List String),
        leftFill 4 40 + l.length + (40 - leftFill 4 40 - l.length) = 40)
    ∧ (∀ l ∈ (["####", "#  #", "####"] : List String),
        (spaces (leftFill 4 40) ++ l ++ spaces (40 - leftFill 4 40 - l.length)).length
          = 40)) :=
  ⟨by decide, by decide,
    c1_centering 10 40 ["####", "#  #", "####"] none none none TextArg.noText 4
      (by decide) (by decide)⟩

/-- C2 counterexample: a 2-row, 25-column terminal, the banner
`["ab", "cd"]` and caption `["x"]` (combined height 3 > 2).  The call does
raise the height-exceeded error, but only after clearing the screen and
printing both banner lines: the trace has three events and starts with the
clear, refuting "before any output is emitted ... the screen is not
cleared". -/
theorem c2_cex :
    (print_banner 2 25 ["ab", "cd"] none none none (TextArg.list ["x"])).2
        = some Err.textTooTall
    ∧ (print_banner 2 25 ["ab", "cd"] none none none (TextArg.list ["x"])).1.length = 3
    ∧ (print_banner 2 25 ["ab", "cd"] none none none (TextArg.list ["x"])).1.head?
        = some Event.clear := by
  refine ⟨by decide, by decide, by decide⟩

/-- C2 (amended): when the banner is non-empty with width at most the
column count and the column count exceeds 20, a banner+caption combination
whose line count exceeds the terminal row count raises the height-exceeded
error after the screen is cleared and the banner lines are printed, and
before any caption line is emitted — the trace is exactly the clear plus
the banner lines. -/
theorem c2_height_error_after_banner (rows cols : Nat) (banner : List String)
    (sf : Option Nat) (color bg : Option String) (text : TextArg) (w : Nat)
    (tlines : List String)
    (hmax : maxLen banner = some w) (hW : ¬ cols < w)
    (hc : captionLines text = some tlines) (h20 : ¬ (cols : Int) - 20 ≤ 0)
    (hrows : rows < banner.length + (wrapCaption cols tlines).length) :
    print_banner rows cols banner sf color bg text
      = (Event.clear ::
          banner.map (fun l => Event.print (renderBannerLine cols (leftFill w cols) color bg l)),
         some Err.textTooTall) := by
  rw [print_banner_eq rows cols banner sf color bg text w hmax]
  exact printBannerW_too_tall rows cols banner sf color bg text w tlines hW hc h20 hrows

/-- C2 witness for the amended theorem, at the counterexample's input. -/
theorem c2_witness :
    print_banner 2 25 ["ab", "cd"] none none none (TextArg.list ["x"])
      = (Event.clear ::
          (["ab", "cd"] : List String).map
            (fun l => Event.print (renderBannerLine 25 (leftFill 2 25) none none l)),
         some Err.textTooTall) :=
  c2_height_error_after_banner 2 25 ["ab", "cd"] none none none (TextArg.list ["x"]) 2 ["x"]
    (by decide) (by decide) (by decide) (by decide) (by decide)

/-- C3: a banner wider than the terminal raises the width-exceeded error
with an empty trace — nothing is printed and the screen is not cleared. -/
theorem c3_too_wide (rows cols : Nat) (banner : List String) (sf : Option Nat)
    (color bg : Option String) (text : TextArg) (w : Nat)
    (hmax : maxLen banner = some w) (hW : cols < w) :
    print_banner rows cols banner sf color bg text = ([], some Err.bannerTooWide) := by
  rw [print_banner_eq rows cols banner sf color bg text w hmax]
  exact printBannerW_too_wide rows cols banner sf color bg text w hW

/-- C3 witness: the spec's example — banner width 41 on a 40-column
terminal. -/
theorem c3_witness :
    print_banner 10 40 ["aaaaaaaaaaaaaaaaaaaaaaaaaaaaaaaaaaaaaaaaa"] none none none
        TextArg.noText
      = ([], some Err.bannerTooWide) :=
  c3_too_wide 10 40 ["aaaaaaaaaaaaaaaaaaaaaaaaaaaaaaaaaaaaaaaaa"] none none none
    TextArg.noText 41 (by decide) (by decide)

/-- C4 counterexample: with foreground `RED` and background `BLACK_BG` on a
4-column terminal, the emitted banner line is
`BLACK_BG ++ RED ++ " ab " ++ RESET_COLOR` — the background code comes
first — and that string differs from the claimed
`RED ++ BLACK_BG ++ " ab " ++ RESET_COLOR` ordering. -/
theorem c4_cex :
    (print_banner 5 4 ["ab"] none (some RED) (some BLACK_BG) TextArg.noText).1[1]?
      = some (Event.print (BLACK_BG ++ RED ++ " ab " ++ RESET_COLOR))
    ∧ BLACK_BG ++ RED ++ " ab " ++ RESET_COLOR ≠ RED ++ BLACK_BG ++ " ab " ++ RESET_COLOR := by
  refine ⟨by decide, by decide⟩

/-- C4 (amended): when both a foreground and a background colour are set,
every emitted banner line consists of the background code, then the
foreground code, then the padded line, with a single reset code at the
end (the code prepends the foreground first and the background second, so
the background code ends up first in the emitted string). -/
theorem c4_bg_before_fg (rows cols : Nat) (banner : List String) (sf : Option Nat)
    (text : TextArg) (w : Nat) (c b : String)
    (hmax : maxLen banner = some w) (hW : ¬ cols < w)
    (hc : ¬ c = "") (hb : ¬ b = "") :
    ∃ rest, (print_banner rows cols banner sf (some c) (some b) text).1 =
      Event.clear ::
        (banner.map (fun l => Event.print
          (b ++ (c ++ (spaces (leftFill w cols) ++ l
              ++ spaces (cols - leftFill w cols - l.length)))
            ++ RESET_COLOR)) ++ rest) := by
  have hcb : (c == "") = false := by simp [hc]
  have hbb : (b == "") = false := by simp [hb]
  have hr : ∀ l, renderBannerLine cols (leftFill w cols) (some c) (some b) l
      = b ++ (c ++ (spaces (leftFill w cols) ++ l
          ++ spaces (cols - leftFill w cols - l.length)))
        ++ RESET_COLOR := by
    intro l
    simp [renderBannerLine, applyColor, truthyS, hcb, hbb]
  obtain ⟨rest, hev⟩ := printBannerW_events_prefix rows cols banner sf (some c) (some b) text w hW
  refine ⟨rest, ?_⟩
  rw [print_banner_eq rows cols banner sf (some c) (some b) text w hmax, hev]
  simp only [hr]

/-- C4 witness for the amended theorem: the counterexample's input. -/
theorem c4_witness :
    ∃ rest, (print_banner 5 4 ["ab"] none (some RED) (some BLACK_BG) TextArg.noText).1 =
      Event.clear ::
        ((["ab"] : List String).map (fun l => Event.print
          (BLACK_BG ++ (RED ++ (spaces (leftFill 2 4) ++ l
              ++ spaces (4 - leftFill 2 4 - l.length)))
            ++ RESET_COLOR)) ++ rest) :=
  c4_bg_before_fg 5 4 ["ab"] none TextArg.noText 2 RED BLACK_BG
    (by decide) (by decide) (by decide) (by decide)

/-- C5: for every caption input (string or list) that `print_banner`
accepts — i.e. whenever the wrap width `cols - 2*10` is positive, which is
exactly when the wrapping step does not raise — every wrapped caption line
has length at most `cols - 20`. -/
theorem c5_wrap_bound (cols : Nat) (text : TextArg) (h : 21 ≤ cols) :
    ∀ line ∈ wrappedCaption cols text, line.length ≤ cols - 20 := by
  intro line hline
  unfold wrappedCaption at hline
  cases hc : captionLines text with
  | none => rw [hc] at hline; simp at hline
  | some tlines =>
    rw [hc] at hline
    unfold wrapCaption at hline
    rw [List.mem_flatten] at hline
    obtain ⟨l, hl, hline⟩ := hline
    rw [List.mem_map] at hl
    obtain ⟨t, ht, rfl⟩ := hl
    exact pywrap_line_le t (cols - 20) (by omega) line hline

/-- C5 witness: a 30-column terminal and a string caption with a long
line; every wrapped line is at most 10 characters long. -/
theorem c5_witness :
    (21 : Nat) ≤ 30 ∧
    ∀ line ∈ wrappedCaption 30 (TextArg.str "hello world this line is long\nshort"),
      line.length ≤ 30 - 20 :=
  ⟨by decide, c5_wrap_bound 30 (TextArg.str "hello world this line is long\nshort") (by decide)⟩

/-- C6 counterexample: the caption line `"a "` has length 2 ≤ 10 (the
target width on a 30-column terminal), yet the wrap step drops the
trailing whitespace and returns `["a"]`, not `["a "]` — wrapping an
already-short line is not the identity. -/
theorem c6_cex :
    "a ".length ≤ 30 - 20 ∧ wrapCaption 30 ["a "] ≠ ["a "] := by
  refine ⟨by decide, by decide⟩

/-- C6 (amended): the caption wrap step of `print_banner` returns a list
of lines unchanged provided each line is non-empty, fits the target width
`cols - 20`, contains no whitespace character other than a plain space,
and does not end in a space (Python's wrapper munges other whitespace,
drops trailing whitespace and drops whitespace-only lines, so those lines
are exactly the fixed points of one wrap pass). -/
theorem c6_wrap_idempotent (cols : Nat) (tlines : List String)
    (h : ∀ l ∈ tlines, l ≠ "" ∧ l.length ≤ cols - 20 ∧
      (∀ c ∈ l.data, isPyWS c = true → c = ' ') ∧ l.data.getLast? ≠ some ' ') :
    wrapCaption cols tlines = tlines :=
  wrapCaption_fit cols tlines h

/-- C6 witness: already-wrapped clean lines on a 30-column terminal are
returned unchanged. -/
theorem c6_witness :
    wrapCaption 30 ["hello", "a b", " lead"] = ["hello", "a b", " lead"] :=
  c6_wrap_idempotent 30 ["hello", "a b", " lead"] (by decide)

/-- C7 counterexample: a successful render (3 rows, 5 columns, 3 banner
lines, background set, no caption) emits 4 events — the clear, the 3
banner lines and zero fill lines — but `R − content − 1 = 3 − 3 − 1 = −1`:
the claimed count is negative while the code emits `max(0, ...)` lines,
so "exactly R − content − 1" fails. -/
theorem c7_cex :
    (print_banner 3 5 ["abc", "de", "x"] none none (some GRAY_BG) TextArg.noText).2 = none
    ∧ truthyS (some GRAY_BG) = true
    ∧ ((print_banner 3 5 ["abc", "de", "x"] none none (some GRAY_BG) TextArg.noText).1.length : Int)
        - 1 - 3 - 0 ≠ (3 : Int) - (3 + 0) - 1 := by
  refine ⟨by decide, by decide, by decide⟩

/-- C7 (amended): every successful render with a truthy background colour
emits, after the clear, the banner lines and the wrapped caption lines
(1 + banner count + caption count events), exactly
`rows − content − 1` full-width background lines computed with truncated
(natural) subtraction — i.e. `max(0, R − content − 1)` — followed only by
the optional sleep/clear tail. -/
theorem c7_fill_count (rows cols : Nat) (banner : List String) (sf : Option Nat)
    (color bg : Option String) (text : TextArg) (evs : List Event)
    (h : print_banner rows cols banner sf color bg text = (evs, none))
    (hbg : truthyS bg = true) :
    ∃ content, evs = content
        ++ List.replicate (rows - (banner.length + (wrappedCaption cols text).length) - 1)
            (Event.print (bg.getD "" ++ spaces cols ++ RESET_COLOR))
        ++ tailEvents sf
      ∧ content.length = 1 + banner.length + (wrappedCaption cols text).length := by
  cases hm : maxLen banner with
  | none =>
    unfold print_banner at h
    rw [hm] at h
    exact absurd (congrArg Prod.snd h) (by simp)
  | some w =>
    rw [print_banner_eq rows cols banner sf color bg text w hm] at h
    have h2 : (printBannerW rows cols banner sf color bg text w).2 = none := by rw [h]
    have h1 : evs = (printBannerW rows cols banner sf color bg text w).1 := by rw [h]
    rw [printBannerW_success rows cols banner sf color bg text w h2] at h1
    refine ⟨(Event.clear ::
        banner.map (fun l => Event.print (renderBannerLine cols (leftFill w cols) color bg l)))
        ++ (wrappedCaption cols text).map
            (fun l => Event.print (captionMargin bg ++ pyCenter l (cols - 20) ++ captionMargin bg)),
      ?_, ?_⟩
    · rw [h1, fillEvents_truthy rows cols (banner.length + (wrappedCaption cols text).length) bg hbg]
    · simp only [List.length_append, List.length_cons, List.length_map]
      omega

/-- C7 witness for the amended theorem: 10 rows, 30 columns, one banner
line, gray background, no caption — 7 fill lines. -/
theorem c7_witness :
    ∃ content,
      (print_banner 10 30 ["ab"] none none (some GRAY_BG) TextArg.noText).1
        = content
          ++ List.replicate
              (10 - ((["ab"] : List String).length
                + (wrappedCaption 30 TextArg.noText).length) - 1)
              (Event.print ((some GRAY_BG).getD "" ++ spaces 30 ++ RESET_COLOR))
          ++ tailEvents none
        ∧ content.length
            = 1 + (["ab"] : List String).length + (wrappedCaption 30 TextArg.noText).length :=
  c7_fill_count 10 30 ["ab"] none none (some GRAY_BG) TextArg.noText
    (print_banner 10 30 ["ab"] none none (some GRAY_BG) TextArg.noText).1
    (by rfl) (by decide)

/-- C8: `play` spawns a child process only when the sound file exists and
one of the known players (omxplayer first, then afplay) is on the search
path; on a missing file, and likewise when no player is found, it prints
the corresponding message and returns normally with no spawn. -/
theorem c8_play_guard :
    (∀ (sys : Sys) (p : String) (b : Bool),
        (∃ e ∈ play sys p b, isSpawn e = true) →
          sys.isFile p = true
            ∧ (onPath sys "omxplayer" = true ∨ onPath sys "afplay" = true))
    ∧ (∀ (sys : Sys) (p : String) (b : Bool), sys.isFile p = false →
        play sys p b = [SEvent.msg ("Sound '" ++ p ++ "' not found.")])
    ∧ (∀ (sys : Sys) (p : String) (b : Bool), sys.isFile p = true →
        onPath sys "omxplayer" = false → onPath sys "afplay" = false →
        play sys p b = [SEvent.msg "No player found on this platform."]) := by
  refine ⟨?_, ?_, ?_⟩
  · intro sys p b hspawn
    by_cases hf : sys.isFile p = true
    · refine ⟨hf, ?_⟩
      by_cases ho : onPath sys "omxplayer" = true
      · exact Or.inl ho
      · by_cases ha : onPath sys "afplay" = true
        · exact Or.inr ha
        · exfalso
          simp only [Bool.not_eq_true] at ho ha
          unfold play at hspawn
          simp [hf, ho, ha, isSpawn] at hspawn
    · exfalso
      simp only [Bool.not_eq_true] at hf
      unfold play at hspawn
      simp [hf, isSpawn] at hspawn
  · intro sys p b hf
    unfold play
    simp [hf]
  · intro sys p b hf ho ha
    unfold play
    simp [hf, ho, ha]

/-- C8 witness: three concrete file systems — one where everything exists
(a spawn happens, so the guard's hypothesis holds), one with the sound
file missing, and one with the file present but no player on the path. -/
theorem c8_witness :
    (Sys.isFile ⟨["/usr/bin"], fun _ => true, fun _ => true⟩ "x.wav" = true
      ∧ (onPath ⟨["/usr/bin"], fun _ => true, fun _ => true⟩ "omxplayer" = true
        ∨ onPath ⟨["/usr/bin"], fun _ => true, fun _ => true⟩ "afplay" = true))
    ∧ play ⟨["/usr/bin"], fun _ => false, fun _ => false⟩ "x.wav" false
        = [SEvent.msg ("Sound '" ++ "x.wav" ++ "' not found.")]
    ∧ play ⟨["/usr/bin"], fun s => s == "x.wav", fun _ => false⟩ "x.wav" true
        = [SEvent.msg "No player found on this platform."] :=
  ⟨c8_play_guard.1 ⟨["/usr/bin"], fun _ => true, fun _ => true⟩ "x.wav" false (by decide),
   c8_play_guard.2.1 ⟨["/usr/bin"], fun _ => false, fun _ => false⟩ "x.wav" false (by decide),
   c8_play_guard.2.2 ⟨["/usr/bin"], fun s => s == "x.wav", fun _ => false⟩ "x.wav" true
     (by decide) (by decide) (by decide)⟩

/-- C9: on the empty banner list `print_banner` fails with the generic
`max()`-of-empty-sequence error — distinct from both layout errors — with
an empty trace (no clear, no output); for every non-empty banner the width
computation is defined, so this branch is unreachable under the spec's
non-empty precondition. -/
theorem c9_empty_banner :
    (∀ (rows cols : Nat) (sf : Option Nat) (color bg : Option String) (text : TextArg),
        print_banner rows cols [] sf color bg text = ([], some Err.emptyMax))
    ∧ (∀ banner : List String, banner ≠ [] → ∃ w, maxLen banner = some w)
    ∧ Err.emptyMax ≠ Err.bannerTooWide ∧ Err.emptyMax ≠ Err.textTooTall := by
  refine ⟨?_, maxLen_isSome, by simp, by simp⟩
  intro rows cols sf color bg text
  rfl

/-- C9 witness. -/
theorem c9_witness :
    print_banner 5 5 [] none none none TextArg.noText = ([], some Err.emptyMax)
    ∧ (["a"] : List String) ≠ [] ∧ (∃ w, maxLen ["a"] = some w) :=
  ⟨c9_empty_banner.1 5 5 none none none TextArg.noText, by decide,
   c9_empty_banner.2.1 ["a"] (by decide)⟩

/-- C10 counterexample: on a 20-column terminal with a 21-character-wide
banner and a caption with a non-empty line, the call fails with the width
LayoutError before printing anything — not with the invalid-width error
after the banner — refuting the claim's unconditional quantification over
banners. -/
theorem c10_cex :
    (print_banner 5 20 ["aaaaaaaaaaaaaaaaaaaaa"] none none none (TextArg.list ["hi"])).2
        = some Err.bannerTooWide
    ∧ (∀ i : Int,
        (print_banner 5 20 ["aaaaaaaaaaaaaaaaaaaaa"] none none none (TextArg.list ["hi"])).2
          ≠ some (Err.invalidWidth i))
    ∧ (print_banner 5 20 ["aaaaaaaaaaaaaaaaaaaaa"] none none none (TextArg.list ["hi"])).1
        = [] := by
  refine ⟨by decide, ?_, by decide⟩
  intro i h
  have h2 : (print_banner 5 20 ["aaaaaaaaaaaaaaaaaaaaa"] none none none
      (TextArg.list ["hi"])).2 = some Err.bannerTooWide := by decide
  rw [h2] at h
  simp at h

/-- C10 (amended): on a terminal of at most 20 columns, provided the
banner is non-empty and fits the width check, a truthy caption with at
least one non-empty line makes `print_banner` fail with the generic
invalid-width `ValueError` from the wrapping step — distinct from both
LayoutErrors — and only after the screen is cleared and the banner lines
are printed. -/
theorem c10_invalid_width (rows cols : Nat) (banner : List String) (sf : Option Nat)
    (color bg : Option String) (text : TextArg) (w : Nat) (tlines : List String)
    (hmax : maxLen banner = some w) (hW : ¬ cols < w) (hcols : cols ≤ 20)
    (hc : captionLines text = some tlines) (_hnon : ∃ l ∈ tlines, l ≠ "") :
    (print_banner rows cols banner sf color bg text
      = (Event.clear ::
          banner.map (fun l => Event.print (renderBannerLine cols (leftFill w cols) color bg l)),
         some (Err.invalidWidth ((cols : Int) - 20))))
    ∧ (∀ i : Int, Err.invalidWidth i ≠ Err.bannerTooWide ∧ Err.invalidWidth i ≠ Err.textTooTall) := by
  constructor
  · rw [print_banner_eq rows cols banner sf color bg text w hmax]
    exact printBannerW_invalid_width rows cols banner sf color bg text w tlines hW hc
      (by omega)
  · intro i
    exact ⟨by simp, by simp⟩

/-- C10 witness for the amended theorem: a 20-column terminal, the banner
`["ab"]` and the caption `["hi"]`. -/
theorem c10_witness :
    (print_banner 5 20 ["ab"] none none none (TextArg.list ["hi"])
      = (Event.clear ::
          (["ab"] : List String).map
            (fun l => Event.print (renderBannerLine 20 (leftFill 2 20) none none l)),
         some (Err.invalidWidth ((20 : Int) - 20))))
    ∧ (∀ i : Int, Err.invalidWidth i ≠ Err.bannerTooWide ∧ Err.invalidWidth i ≠ Err.textTooTall) :=
  c10_invalid_width 5 20 ["ab"] none none none (TextArg.list ["hi"]) 2 ["hi"]
    (by decide) (by decide) (by decide) (by decide) ⟨"hi", by decide⟩
